import Mathlib

/-!
Verification of the CloudCoffee demo backend against its specification.

Shallow embedding of the two specified components:
* the AI Gateway's error-classification layer (function parseGeminiError and
  handler handleGeminiError of the server gemini routes), and
* the persistence store (server/routes/persistence.ts): readStore and the
  save / upsert / delete / serve-image route handlers.

JavaScript strings are modelled as Lean `String`; the string operations the
source uses (String.prototype.includes, toLowerCase, the data-URI regular
expression) are implemented structurally over the character list so that the
kernel can evaluate them on concrete inputs.  Nondeterministic inputs of the
source (Date.now timestamps, Math.random id/filename suffixes) are passed as
explicit parameters.
-/

namespace CloudCoffee

/-! ## String primitives -/

/-- ASCII lower-casing of one character, as toLowerCase acts on the
characters that occur in the classifier's search strings. -/
def lowerChar (c : Char) : Char :=
  if 'A' ≤ c ∧ c ≤ 'Z' then Char.ofNat (c.toNat + 32) else c

/-- JavaScript msg.toLowerCase() for the strings the classifier inspects. -/
def lowerStr (s : String) : String := String.mk (s.data.map lowerChar)

/-- List-of-characters test: is the first list a prefix of the second? -/
def prefL : List Char → List Char → Bool
  | [], _ => true
  | _ :: _, [] => false
  | a :: as, b :: bs => a = b && prefL as bs

/-- List-of-characters test: does `sub` occur contiguously inside `hay`? -/
def containsL (hay sub : List Char) : Bool :=
  match hay with
  | [] => prefL sub []
  | _ :: t => prefL sub hay || containsL t sub

/-- JavaScript hay.includes(sub). -/
def strIncludes (hay sub : String) : Bool := containsL hay.data sub.data

/-- JavaScript truthiness of an optional string value (undefined / null /
the empty string are falsy; every other string is truthy). -/
def jsTruthy : Option String → Bool
  | none => false
  | some s => !s.data.isEmpty

/-! ## AI Gateway error classification

Embedding of parseGeminiError / handleGeminiError from the server gemini
routes.  A thrown error is inspected through two projections: `message`
models `error.message || String(error)` (the message text that the code
scans), and `status` models the first defined numeric value among
`error.status`, `error.statusCode`, `error.httpStatusCode`, `error.code`
(`none` when all are undefined or non-numeric). -/

structure GemErr where
  status : Option Nat
  message : String
deriving Repr, DecidableEq

/-- Result of parseGeminiError: HTTP status to return, user-facing message,
and machine-readable error code. -/
structure ParsedGemErr where
  status : Nat
  message : String
  code : String
deriving Repr, DecidableEq

def rateLimitedMsg : String :=
  "Limite de requisições da API Gemini atingido. Aguarde alguns segundos e tente novamente."

def serviceUnavailableMsg : String :=
  "O serviço Gemini está temporariamente indisponível. Tente novamente em instantes."

def badRequestMsg : String :=
  "A requisição foi bloqueada (possível filtro de segurança ou dados inválidos)."

def authErrorMsg : String :=
  "Erro de autenticação com a API Gemini. Verifique as credenciais do projeto."

/-- Fixed prefix of the default-class message; the source appends the raw
upstream message text after it (template literal). -/
def internalErrorMsgStart : String := "Erro interno ao chamar a API Gemini: "

/-- Embedding of parseGeminiError, clause for clause in source order. -/
def parseGeminiError (e : GemErr) : ParsedGemErr :=
  let msg := e.message
  if (e.status == some 429) || strIncludes msg "429" || strIncludes msg "RESOURCE_EXHAUSTED"
      || strIncludes (lowerStr msg) "rate limit" || strIncludes (lowerStr msg) "quota" then
    { status := 429, message := rateLimitedMsg, code := "RATE_LIMITED" }
  else if (e.status == some 503) || strIncludes msg "503" || strIncludes msg "UNAVAILABLE" then
    { status := 503, message := serviceUnavailableMsg, code := "SERVICE_UNAVAILABLE" }
  else if (e.status == some 400) || strIncludes msg "400" || strIncludes msg "INVALID_ARGUMENT"
      || strIncludes msg "SAFETY" then
    { status := 400, message := badRequestMsg, code := "BAD_REQUEST" }
  else if (e.status == some 401) || (e.status == some 403) || strIncludes msg "401"
      || strIncludes msg "403" || strIncludes msg "PERMISSION_DENIED"
      || strIncludes msg "UNAUTHENTICATED" then
    { status := 403, message := authErrorMsg, code := "AUTH_ERROR" }
  else
    { status := 500, message := internalErrorMsgStart ++ msg, code := "INTERNAL_ERROR" }

/-- An HTTP response as the route handlers build it: status code plus the
`error` and `code` fields of the JSON body when the handler includes them,
and the `success` flag of the delete route's success body. -/
structure ApiResponse where
  status : Nat
  error : Option String := none
  code : Option String := none
  success : Bool := false
deriving Repr, DecidableEq

/-- Embedding of handleGeminiError: classify the error and answer with the
classified status and an error-plus-code JSON body. -/
def handleGeminiError (e : GemErr) : ApiResponse :=
  let p := parseGeminiError e
  { status := p.status, error := some p.message, code := some p.code }

/-- The five failure classes of the specification's error taxonomy. -/
inductive ErrClass
  | rateLimited
  | serviceUnavailable
  | badRequest
  | authError
  | internalError
deriving Repr, DecidableEq

/-- Classification as claim C3 words it (stated for comparison with the
source's parseGeminiError): the listed status values and literal,
case-sensitive message substrings, with no trigger for UNAUTHENTICATED. -/
def claimedStatusC3 (e : GemErr) : Nat :=
  if (e.status == some 429) || strIncludes e.message "429"
      || strIncludes e.message "RESOURCE_EXHAUSTED" || strIncludes e.message "rate limit"
      || strIncludes e.message "quota" then 429
  else if (e.status == some 503) || strIncludes e.message "503"
      || strIncludes e.message "UNAVAILABLE" then 503
  else if (e.status == some 400) || strIncludes e.message "400"
      || strIncludes e.message "INVALID_ARGUMENT" || strIncludes e.message "SAFETY" then 400
  else if (e.status == some 401) || (e.status == some 403) || strIncludes e.message "401"
      || strIncludes e.message "403" || strIncludes e.message "PERMISSION_DENIED" then 403
  else 500

/-- Amended claim C3 classifier, in the claim's vocabulary: the same fixed
priority order, with the two corrections the source forces — the rate-limit
substrings "rate limit" and "quota" are matched on the lower-cased message,
and the auth class is also triggered by the substring UNAUTHENTICATED. -/
def classifyAmended (e : GemErr) : ErrClass :=
  if (e.status == some 429) || strIncludes e.message "429"
      || strIncludes e.message "RESOURCE_EXHAUSTED"
      || strIncludes (lowerStr e.message) "rate limit"
      || strIncludes (lowerStr e.message) "quota" then .rateLimited
  else if (e.status == some 503) || strIncludes e.message "503"
      || strIncludes e.message "UNAVAILABLE" then .serviceUnavailable
  else if (e.status == some 400) || strIncludes e.message "400"
      || strIncludes e.message "INVALID_ARGUMENT"
      || strIncludes e.message "SAFETY" then .badRequest
  else if (e.status == some 401) || (e.status == some 403) || strIncludes e.message "401"
      || strIncludes e.message "403" || strIncludes e.message "PERMISSION_DENIED"
      || strIncludes e.message "UNAUTHENTICATED" then .authError
  else .internalError

/-- HTTP status the specification assigns to each failure class. -/
def statusOfClass : ErrClass → Nat
  | .rateLimited => 429
  | .serviceUnavailable => 503
  | .badRequest => 400
  | .authError => 403
  | .internalError => 500

/-- Machine-readable code the gateway assigns to each failure class. -/
def codeOfClass : ErrClass → String
  | .rateLimited => "RATE_LIMITED"
  | .serviceUnavailable => "SERVICE_UNAVAILABLE"
  | .badRequest => "BAD_REQUEST"
  | .authError => "AUTH_ERROR"
  | .internalError => "INTERNAL_ERROR"

/-- User-facing message for a classified error with the given upstream
message text: a fixed canned message for the four specific classes, and the
fixed prefix followed by the upstream text for the default class. -/
def cannedMessageFor (code : String) (upstream : String) : String :=
  if code = "RATE_LIMITED" then rateLimitedMsg
  else if code = "SERVICE_UNAVAILABLE" then serviceUnavailableMsg
  else if code = "BAD_REQUEST" then badRequestMsg
  else if code = "AUTH_ERROR" then authErrorMsg
  else internalErrorMsgStart ++ upstream

/-! ## Persistence store: data model

Embedding of server/routes/persistence.ts.  Stored entities are untyped
JSON objects in the source (`any[]`); they are modelled by one record
carrying the union of the fields the route handlers read or write, with
`none` / `[]` standing for an absent field.  Opaque JSON payloads (task,
result, inputData, stats, message objects, chart objects, insight objects)
are modelled as opaque strings. -/

structure Entry where
  id : String
  imageFile : Option String := none
  cameraName : Option String := none
  task : Option String := none
  result : Option String := none
  messages : List String := []
  startedAt : Option String := none
  lastMessageAt : Option String := none
  inputData : Option String := none
  report : Option String := none
  charts : List String := []
  insights : Option (List String) := none
  stats : Option String := none
  text : Option String := none
  timestamp : Option String := none
deriving Repr, DecidableEq, Inhabited

/-- The StoreData shape of the source: the store document with all five
collection keys present. -/
structure Store where
  version : Int
  generatedImages : List Entry
  visionAnalyses : List Entry
  chatSessions : List Entry
  sustainabilityReports : List Entry
  dashboardSnapshots : List Entry
deriving Repr, DecidableEq

/-- A store document as parsed from disk by JSON.parse: any of the keys may
be absent (or null), since the file's content is not validated.  `none`
models an absent or null key. -/
structure RawStore where
  version : Option Int := none
  generatedImages : Option (List Entry) := none
  visionAnalyses : Option (List Entry) := none
  chatSessions : Option (List Entry) := none
  sustainabilityReports : Option (List Entry) := none
  dashboardSnapshots : Option (List Entry) := none
deriving Repr, DecidableEq

/-- The empty, fully-keyed document readStore seeds when store.json is
absent. -/
def emptyStoreDoc : RawStore :=
  { version := some 1
    generatedImages := some []
    visionAnalyses := some []
    chatSessions := some []
    sustainabilityReports := some []
    dashboardSnapshots := some [] }

/-- Embedding of readStore.  `disk` is the current content of store.json
(`none` when the file does not exist).  Returns the in-memory document the
function returns together with the content of store.json after the call:
a missing file is seeded with the empty document; an existing document gets
an empty generatedImages array injected when that key is absent (the
source's only migration, never written back), and no other key is touched. -/
def readStore (disk : Option RawStore) : RawStore × Option RawStore :=
  match disk with
  | none => (emptyStoreDoc, some emptyStoreDoc)
  | some raw =>
    ({ raw with generatedImages := some (raw.generatedImages.getD []) }, some raw)

/-- Server-side state a persistence route handler touches: the store
document (store.json, here in its fully-keyed form, as every handler that
gets this far accesses all collections it needs) and the set of filenames
present in the images directory. -/
structure ServerState where
  store : Store
  images : List String
deriving Repr, DecidableEq

/-- fs.writeFileSync into the images directory: the directory's filename
set gains the name (an existing file of the same name is overwritten). -/
def writeFile (images : List String) (name : String) : List String :=
  if images.contains name then images else name :: images

/-- fs.existsSync followed by fs.unlinkSync in the delete route: remove the
name from the images directory if present, do nothing otherwise. -/
def unlinkIfExists (images : List String) (name : String) : List String :=
  if images.contains name then images.erase name else images

/-! ## Persistence store: the data-URI check -/

/-- Word character of the regular expression's character class. -/
def isWordChar (c : Char) : Bool :=
  ('a' ≤ c && c ≤ 'z') || ('A' ≤ c && c ≤ 'Z') || ('0' ≤ c && c ≤ '9') || c = '_'

/-- JavaScript line terminators, which the dot of an un-flagged regular
expression does not match. -/
def isLineTerm (c : Char) : Bool :=
  c = '\n' || c = '\r' || c = '\u2028' || c = '\u2029'

/-- Strip a literal character-list prefix, returning the remainder. -/
def dropLit : List Char → List Char → Option (List Char)
  | [], rest => some rest
  | _ :: _, [] => none
  | a :: as, b :: bs => if a = b then dropLit as bs else none

/-- The save routes' regular-expression match (pattern: literal data-colon
image slash, then one or more word characters, then the literal
semicolon-base64-comma, then the captured dot-plus up to the end of the
string, with no flags).  Returns the captured base64 payload when the
payload matches. -/
def parseDataUri (s : String) : Option String :=
  match dropLit "data:image/".data s.data with
  | none => none
  | some rest =>
    let mime := rest.takeWhile isWordChar
    if mime.isEmpty then none
    else
      match dropLit ";base64,".data (rest.drop mime.length) with
      | none => none
      | some payload =>
        if payload.isEmpty || payload.any isLineTerm then none
        else some (String.mk payload)

/-- Truthiness-guarded match, as both save routes compute it: the image
payload parses only when imageData is truthy and the regular expression
matches it. -/
def matchedImagePayload (imageData : Option String) : Option String :=
  if jsTruthy imageData then parseDataUri (imageData.getD "") else none

/-! ## Persistence store: route handlers -/

/-- Outcome of the strict generated-image save route: the saved entry, or
the 400 validation response. -/
inductive SaveImageResp
  | ok (entry : Entry)
  | badRequest (error : String)
deriving Repr, DecidableEq

/-- Embedding of the generated-image save route.  `genId`, `genFile` and
`now` stand for the Date-and-random generated id, filename and timestamp. -/
def saveGeneratedImage (st : ServerState) (cameraName imageData : Option String)
    (genId genFile now : String) : SaveImageResp × ServerState :=
  match matchedImagePayload imageData with
  | none => (.badRequest "No valid image data provided", st)
  | some _ =>
    let entry : Entry :=
      { id := genId, cameraName := cameraName, imageFile := some genFile,
        timestamp := some now }
    (.ok entry,
      { store := { st.store with generatedImages := entry :: st.store.generatedImages },
        images := writeFile st.images genFile })

/-- Embedding of the vision save route: an image file is written only when
the payload matches; otherwise the entry keeps a null imageFile and the
call still succeeds.  `visionId`, `visionFile`, `now` stand for the
generated id, filename and timestamp. -/
def saveVision (st : ServerState) (cameraName imageData task result : Option String)
    (visionId visionFile now : String) : Entry × ServerState :=
  let withImage := (matchedImagePayload imageData).isSome
  let entry : Entry :=
    { id := visionId, cameraName := cameraName,
      imageFile := if withImage then some visionFile else none,
      task := task, result := result, timestamp := some now }
  (entry,
    { store := { st.store with visionAnalyses := entry :: st.store.visionAnalyses },
      images := if withImage then writeFile st.images visionFile else st.images })

/-- JavaScript Array.prototype.findIndex, with `none` for the source's -1. -/
def findIndexJs {α : Type} (p : α → Bool) : List α → Option Nat
  | [] => none
  | a :: rest => if p a then some 0 else (findIndexJs p rest).map (· + 1)

/-- Embedding of the chat upsert route.  `id` and `messages` are the request
body fields; `freshId` stands for the generated chat id and `now` for the
timestamp of the call. -/
def upsertChat (st : ServerState) (id : Option String) (messages : List String)
    (freshId now : String) : Entry × ServerState :=
  let sessions := st.store.chatSessions
  let existingIdx := findIndexJs (fun s => id == some s.id) sessions
  let session : Entry :=
    { id := match id with
        | some v => if v.data.isEmpty then freshId else v
        | none => freshId
      messages := messages
      startedAt := match existingIdx with
        | some i => (sessions.getD i default).startedAt
        | none => some now
      lastMessageAt := some now }
  let newSessions := match existingIdx with
    | some i => sessions.set i session
    | none => session :: sessions
  (session, { st with store := { st.store with chatSessions := newSessions } })

/-- Embedding of the sustainability save route.  `sid`, `now` stand for the
generated id and timestamp; absent request fields are `none`. -/
def saveSustainability (st : ServerState) (inputData report : Option String)
    (charts : Option (List String)) (sid now : String) : Entry × ServerState :=
  let entry : Entry :=
    { id := sid, inputData := inputData, report := report,
      charts := charts.getD [], timestamp := some now }
  (entry,
    { st with store :=
        { st.store with sustainabilityReports := entry :: st.store.sustainabilityReports } })

/-- Embedding of the dashboard save route.  `did`, `now` stand for the
generated id and timestamp; the empty-object default of stats is modelled
by the empty string. -/
def saveDashboard (st : ServerState) (insights : Option (List String))
    (charts : Option (List String)) (stats text : Option String)
    (did now : String) : Entry × ServerState :=
  let entry : Entry :=
    { id := did, insights := insights, charts := charts.getD [],
      stats := some (stats.getD ""), text := some (text.getD ""),
      timestamp := some now }
  (entry,
    { st with store :=
        { st.store with dashboardSnapshots := entry :: st.store.dashboardSnapshots } })

/-- Internal collection keys of the store document. -/
inductive CollKey
  | generatedImages
  | visionAnalyses
  | chatSessions
  | sustainabilityReports
  | dashboardSnapshots
deriving Repr, DecidableEq

/-- The delete route's fixed public-name-to-key table. -/
def collectionMap (s : String) : Option CollKey :=
  if s == "generated-images" then some .generatedImages
  else if s == "vision" then some .visionAnalyses
  else if s == "chat" then some .chatSessions
  else if s == "sustainability" then some .sustainabilityReports
  else if s == "dashboard" then some .dashboardSnapshots
  else none

/-- Read a collection of the store document by key. -/
def getColl (st : Store) : CollKey → List Entry
  | .generatedImages => st.generatedImages
  | .visionAnalyses => st.visionAnalyses
  | .chatSessions => st.chatSessions
  | .sustainabilityReports => st.sustainabilityReports
  | .dashboardSnapshots => st.dashboardSnapshots

/-- Replace a collection of the store document by key. -/
def setColl (st : Store) : CollKey → List Entry → Store
  | .generatedImages, l => { st with generatedImages := l }
  | .visionAnalyses, l => { st with visionAnalyses := l }
  | .chatSessions, l => { st with chatSessions := l }
  | .sustainabilityReports, l => { st with sustainabilityReports := l }
  | .dashboardSnapshots, l => { st with dashboardSnapshots := l }

/-- Embedding of the delete route: resolve the public collection name, find
the entry by id, delete an owned image file for the two image-bearing
collections (when the imageFile field is truthy and the file exists),
remove the entry, persist. -/
def deleteEntry (st : ServerState) (collection id : String) : ApiResponse × ServerState :=
  match collectionMap collection with
  | none => ({ status := 400, error := some "Invalid collection" }, st)
  | some key =>
    let arr := getColl st.store key
    match findIndexJs (fun item => item.id == id) arr with
    | none => ({ status := 404, error := some "Entry not found" }, st)
    | some idx =>
      let images :=
        if (key == .visionAnalyses || key == .generatedImages)
            && jsTruthy (arr.getD idx default).imageFile then
          unlinkIfExists st.images ((arr.getD idx default).imageFile.getD "")
        else st.images
      ({ status := 200, success := true },
        { store := setColl st.store key (arr.eraseIdx idx), images := images })

/-! ## Persistence store: image serving

The serve-image route resolves the requested filename against the images
directory with path.join, which normalizes dot and dot-dot segments, and
serves whatever file the resolved path names.  Paths are modelled as
segment lists relative to the server's data root. -/

/-- Path of the images directory below the data root. -/
def imagesDirSegs : List String := ["data", "images"]

/-- Split a character list at slashes. -/
def splitSlash : List Char → List (List Char)
  | [] => [[]]
  | c :: rest =>
    let r := splitSlash rest
    if c = '/' then [] :: r
    else
      match r with
      | [] => [[c]]
      | h :: t => (c :: h) :: t

/-- The non-empty slash-separated segments of a filename string. -/
def pathSegs (s : String) : List String :=
  ((splitSlash s.data).map String.mk).filter (fun t => t ≠ "")

/-- path.join of a base directory and further segments, with the
normalization path.join performs: a dot segment is dropped, a dot-dot
segment removes the previous segment. -/
def normJoin (base extra : List String) : List String :=
  extra.foldl
    (fun acc seg =>
      if seg = "." then acc
      else if seg = ".." then acc.dropLast
      else acc ++ [seg])
    base

/-- A file system for the serve route: the files below the data root, as
path-segment lists paired with file content. -/
abbrev FileSys : Type := List (List String × String)

/-- Embedding of the serve-image route: join the requested filename onto
the images directory, 404 when no file exists at the resolved path, and the
resolved file's bytes otherwise.  Returns the response together with the
served content, and touches no file. -/
def serveImage (fs : FileSys) (filename : String) : ApiResponse × Option String :=
  let p := normJoin imagesDirSegs (pathSegs filename)
  match List.lookup p fs with
  | none => ({ status := 404, error := some "Image not found" }, none)
  | some content => ({ status := 200 }, some content)

/-! ## Concrete states for evaluation -/

/-- The empty store document in fully-keyed form. -/
def store0 : Store :=
  { version := 1, generatedImages := [], visionAnalyses := [], chatSessions := [],
    sustainabilityReports := [], dashboardSnapshots := [] }

/-- Server state with the empty store and an empty images directory. -/
def state0 : ServerState := { store := store0, images := [] }

/-- A vision entry owning an image file. -/
def visionEntry1 : Entry :=
  { id := "vision_1", cameraName := some "Frente de Caixa", imageFile := some "img_1.png",
    task := some "count people", result := some "1 person", timestamp := some "t0" }

/-- Server state holding that vision entry and its image file. -/
def state1 : ServerState :=
  { store := { store0 with visionAnalyses := [visionEntry1] }, images := ["img_1.png"] }

/-- File system for the serve-image scenario: the data root holds only
store.json; the images directory holds no file at all. -/
def trapFs : FileSys := [(["data", "store.json"], "store-content")]

/-! ## Theorems -/

/-! ### Helper lemmas -/

theorem findIndexJs_eq_none {α : Type} (p : α → Bool) (l : List α)
    (h : ∀ x ∈ l, p x = false) : findIndexJs p l = none := by
  induction l with
  | nil => rfl
  | cons a t ih =>
    have ha := h a (List.mem_cons_self a t)
    have ht := ih fun x hx => h x (List.mem_cons_of_mem a hx)
    simp [findIndexJs, ha, ht]

theorem findIndexJs_append_cons {α : Type} (p : α → Bool) (pre : List α) (e : α)
    (post : List α) (hpre : ∀ x ∈ pre, p x = false) (he : p e = true) :
    findIndexJs p (pre ++ e :: post) = some pre.length := by
  induction pre with
  | nil => simp [findIndexJs, he]
  | cons a t ih =>
    have ha := hpre a (List.mem_cons_self a t)
    have ht := ih fun x hx => hpre x (List.mem_cons_of_mem a hx)
    simp [findIndexJs, ha, ht]

theorem findIndexJs_lt_length {α : Type} (p : α → Bool) (l : List α) (i : Nat)
    (h : findIndexJs p l = some i) : i < l.length := by
  induction l generalizing i with
  | nil => simp [findIndexJs] at h
  | cons a t ih =>
    cases hp : p a with
    | true =>
      simp [findIndexJs, hp] at h
      subst h
      simp
    | false =>
      simp [findIndexJs, hp] at h
      obtain ⟨j, hj, rfl⟩ := h
      have := ih j hj
      simp
      omega

theorem findIndexJs_set {α : Type} (p : α → Bool) (l : List α) (i : Nat) (a : α)
    (hf : findIndexJs p l = some i) (ha : p a = true) :
    findIndexJs p (l.set i a) = some i := by
  induction l generalizing i with
  | nil => simp [findIndexJs] at hf
  | cons b t ih =>
    cases hp : p b with
    | true =>
      have h0 : i = 0 := by simp [findIndexJs, hp] at hf; omega
      subst h0
      simp [findIndexJs, ha]
    | false =>
      simp [findIndexJs, hp] at hf
      obtain ⟨j, hj, rfl⟩ := hf
      simp [findIndexJs, hp, ih j hj]

theorem getElem?_set_self {α : Type} (l : List α) (i : Nat) (a : α)
    (h : i < l.length) : (l.set i a)[i]? = some a := by
  induction l generalizing i with
  | nil => simp at h
  | cons b t ih =>
    cases i with
    | zero => simp
    | succ j => simpa using ih j (by simpa using h)

theorem getElem?_append_cons {α : Type} (pre : List α) (e : α) (post : List α) :
    (pre ++ e :: post)[pre.length]? = some e := by
  induction pre with
  | nil => simp
  | cons a t ih => simpa using ih

theorem getElem_append_cons {α : Type} (pre : List α) (e : α) (post : List α)
    (h : pre.length < (pre ++ e :: post).length) :
    (pre ++ e :: post)[pre.length] = e := by
  induction pre with
  | nil => simp
  | cons a t ih => simpa using ih (by simp)

theorem unlinkIfExists_eq_erase (images : List String) (name : String) :
    unlinkIfExists images name = images.erase name := by
  unfold unlinkIfExists
  split
  · rfl
  · rename_i h
    rw [List.erase_of_not_mem (by simpa using h)]

theorem eraseIdx_append_cons {α : Type} (pre : List α) (e : α) (post : List α) :
    (pre ++ e :: post).eraseIdx pre.length = pre ++ post := by
  induction pre with
  | nil => rfl
  | cons a t ih => simp [List.eraseIdx, ih]

theorem set_append_cons {α : Type} (pre : List α) (e a : α) (post : List α) :
    (pre ++ e :: post).set pre.length a = pre ++ a :: post := by
  induction pre with
  | nil => rfl
  | cons b t ih => simp [ih]

theorem getColl_setColl_self (s : Store) (key : CollKey) (l : List Entry) :
    getColl (setColl s key l) key = l := by
  cases key <;> rfl

theorem getColl_setColl_other (s : Store) (key k2 : CollKey) (l : List Entry)
    (h : k2 ≠ key) : getColl (setColl s key l) k2 = getColl s k2 := by
  cases key <;> cases k2 <;> first | rfl | exact absurd rfl h

theorem version_setColl (s : Store) (key : CollKey) (l : List Entry) :
    (setColl s key l).version = s.version := by
  cases key <;> rfl

theorem data_isEmpty_false_of_ne {s : String} (h : s ≠ "") : s.data.isEmpty = false := by
  cases s with
  | mk d =>
    cases d with
    | nil => exact absurd rfl h
    | cons c cs => rfl

/-! ### Claim C2 — schema migration on load -/

/-- Claim C2, counterexample: loading a stored document that has only a
version field (all collection keys missing) returns a document whose
visionAnalyses key is still missing — only generatedImages is injected as
an empty array — contrary to the claim that every missing collection key
comes back present as an empty array. -/
theorem claim_C2_counterexample :
    ((readStore (some { version := some 1 })).1).visionAnalyses = none ∧
    ((readStore (some { version := some 1 })).1).generatedImages = some [] :=
  ⟨rfl, rfl⟩

/-- Claim C2, amended: loading an existing stored document injects an empty
array for a missing generatedImages key only; the other four collection
keys and the version are returned exactly as stored (a missing key stays
missing), no error is raised, and nothing is written back to disk. -/
theorem claim_C2_migration (raw : RawStore) :
    (readStore (some raw)).1.generatedImages = some (raw.generatedImages.getD []) ∧
    (readStore (some raw)).1.visionAnalyses = raw.visionAnalyses ∧
    (readStore (some raw)).1.chatSessions = raw.chatSessions ∧
    (readStore (some raw)).1.sustainabilityReports = raw.sustainabilityReports ∧
    (readStore (some raw)).1.dashboardSnapshots = raw.dashboardSnapshots ∧
    (readStore (some raw)).1.version = raw.version ∧
    (readStore (some raw)).2 = some raw :=
  ⟨rfl, rfl, rfl, rfl, rfl, rfl, rfl⟩

/-! ### Claim C4 — delete of a missing id -/

/-- Claim C4, counterexample: deleting a missing id answers 404 with a body
that carries the error message field but no code field, contrary to the
claim that the body contains both; the store is unchanged. -/
theorem claim_C4_counterexample :
    (deleteEntry state0 "vision" "missing").1.status = 404 ∧
    (deleteEntry state0 "vision" "missing").1.error = some "Entry not found" ∧
    (deleteEntry state0 "vision" "missing").1.code = none ∧
    (deleteEntry state0 "vision" "missing").2 = state0 := by
  decide

/-- Claim C4, amended: for every delete request over a known collection
whose id does not exist there, the response is a 404 whose JSON body
contains the error message field (but no code field), and the store
document on disk is unchanged by the call. -/
theorem claim_C4_delete_missing (st : ServerState) (coll id : String) (key : CollKey)
    (hk : collectionMap coll = some key)
    (hmiss : ∀ x ∈ getColl st.store key, x.id ≠ id) :
    deleteEntry st coll id =
      ({ status := 404, error := some "Entry not found", code := none, success := false },
        st) := by
  have hnone : findIndexJs (fun item => item.id == id) (getColl st.store key) = none :=
    findIndexJs_eq_none _ _ fun x hx => by
      simpa using hmiss x hx
  simp [deleteEntry, hk, hnone]

/-- Claim C4, witness: the amended theorem evaluated on the empty store and
the vision collection. -/
theorem claim_C4_witness :
    collectionMap "vision" = some CollKey.visionAnalyses ∧
    (∀ x ∈ getColl state0.store CollKey.visionAnalyses, x.id ≠ "missing") ∧
    deleteEntry state0 "vision" "missing" =
      ({ status := 404, error := some "Entry not found", code := none, success := false },
        state0) :=
  ⟨by decide, by decide,
    claim_C4_delete_missing state0 "vision" "missing" CollKey.visionAnalyses
      (by decide) (by decide)⟩

/-! ### Claim C5 — strict generated-image save -/

/-- Claim C5: a payload that does not match the embedded-image data URI
form makes the strict generated-image save fail with the validation error,
writing no file and adding no entity; a payload that does match writes
exactly one new file and prepends exactly one new entity whose imageFile
names that file. -/
theorem claim_C5_generated_image (st : ServerState) (cam imageData : Option String)
    (genId genFile now : String) (hfresh : genFile ∉ st.images) :
    (matchedImagePayload imageData = none →
        saveGeneratedImage st cam imageData genId genFile now =
          (.badRequest "No valid image data provided", st)) ∧
    (∀ payload, matchedImagePayload imageData = some payload →
        saveGeneratedImage st cam imageData genId genFile now =
          (.ok { id := genId, cameraName := cam, imageFile := some genFile,
                 timestamp := some now },
            { store := { st.store with generatedImages :=
                  { id := genId, cameraName := cam, imageFile := some genFile,
                    timestamp := some now } :: st.store.generatedImages },
              images := genFile :: st.images })) := by
  constructor
  · intro h
    simp [saveGeneratedImage, h]
  · intro payload h
    have hc : st.images.contains genFile = false := by
      simpa using hfresh
    simp [saveGeneratedImage, h, writeFile, hc, hfresh]

/-- Claim C5, witness: the theorem evaluated on the empty state, a valid
PNG data URI, and a malformed payload. -/
theorem claim_C5_witness :
    "gen_1.png" ∉ state0.images ∧
    matchedImagePayload (some "data:image/png;base64,AAAA") = some "AAAA" ∧
    saveGeneratedImage state0 (some "cam") (some "data:image/png;base64,AAAA")
        "genimg_1" "gen_1.png" "t1" =
      (.ok { id := "genimg_1", cameraName := some "cam", imageFile := some "gen_1.png",
             timestamp := some "t1" },
        { store := { state0.store with generatedImages :=
              [{ id := "genimg_1", cameraName := some "cam", imageFile := some "gen_1.png",
                 timestamp := some "t1" }] },
          images := ["gen_1.png"] }) :=
  ⟨by decide, by decide,
    (claim_C5_generated_image state0 (some "cam") (some "data:image/png;base64,AAAA")
        "genimg_1" "gen_1.png" "t1" (by decide)).2 "AAAA" (by decide)⟩

/-! ### Claim C8 — image serving and path traversal -/

/-- Claim C8 is wrong about the code (code bug): resolving the request
filename with a parent-directory segment (reachable as an encoded slash in
the URL) escapes the images directory: on a file system whose images
directory is empty, the serve-image route answers 200 with the content of
store.json, which lies outside the images directory — the specification
demands not-found for everything outside it. -/
theorem claim_C8_path_traversal :
    (serveImage trapFs "../store.json").1.status = 200 ∧
    (serveImage trapFs "../store.json").2 = some "store-content" ∧
    imagesDirSegs.isPrefixOf (normJoin imagesDirSegs (pathSegs "../store.json")) = false ∧
    (∀ p ∈ trapFs, imagesDirSegs.isPrefixOf p.1 = false) := by
  decide

/-! ### Claim C10 — version preservation -/

/-- Claim C10: every persistence operation leaves the version field of the
store document unchanged (the persisted version equals the loaded version),
a loaded document keeps its stored version, and a freshly created store has
version 1. -/
theorem claim_C10_version_preserved :
    (readStore none).1.version = some 1 ∧
    (∀ raw, (readStore (some raw)).1.version = raw.version) ∧
    (∀ st cam img gid gf now,
        ((saveGeneratedImage st cam img gid gf now).2).store.version = st.store.version) ∧
    (∀ st cam img task result vid vf now,
        ((saveVision st cam img task result vid vf now).2).store.version =
          st.store.version) ∧
    (∀ st id m fid now,
        ((upsertChat st id m fid now).2).store.version = st.store.version) ∧
    (∀ st a b c sid now,
        ((saveSustainability st a b c sid now).2).store.version = st.store.version) ∧
    (∀ st a b c d did now,
        ((saveDashboard st a b c d did now).2).store.version = st.store.version) ∧
    (∀ st coll id, ((deleteEntry st coll id).2).store.version = st.store.version) := by
  refine ⟨rfl, fun raw => rfl, ?_, ?_, ?_, ?_, ?_, ?_⟩
  · intro st cam img gid gf now
    cases h : matchedImagePayload img <;> simp [saveGeneratedImage, h]
  · intro st cam img task result vid vf now
    simp [saveVision]
  · intro st id m fid now
    cases h : findIndexJs (fun s => id == some s.id) st.store.chatSessions <;>
      simp [upsertChat, h]
  · intro st a b c sid now
    simp [saveSustainability]
  · intro st a b c d did now
    simp [saveDashboard]
  · intro st coll id
    cases hk : collectionMap coll with
    | none => simp [deleteEntry, hk]
    | some key =>
      cases hf : findIndexJs (fun item => item.id == id) (getColl st.store key) with
      | none => simp [deleteEntry, hk, hf]
      | some idx => simp [deleteEntry, hk, hf, version_setColl]

/-- Claim C1, counterexample: for the upstream error with no status field
and message "boom" — an internal-error (default) class input — the gateway's
response message does contain the raw upstream error text "boom", contrary
to the claim that it never does. -/
theorem claim_C1_counterexample :
    (parseGeminiError { status := none, message := "boom" }).code = "INTERNAL_ERROR" ∧
    strIncludes ((handleGeminiError { status := none, message := "boom" }).error.getD "")
      "boom" = true := by
  decide

/-- Claim C1, amended: the response message is fully determined by the
classified failure class — each of the four specific classes gets its fixed
canned message, independent of the upstream error, while the internal-error
(default) class gets the fixed prefix followed by the upstream error's
message text (so for that class the raw upstream text is included). -/
theorem claim_C1_canned_messages (e : GemErr) :
    (handleGeminiError e).error =
      some (cannedMessageFor (codeOfClass (classifyAmended e)) e.message) ∧
    (handleGeminiError e).code = some (codeOfClass (classifyAmended e)) := by
  simp only [handleGeminiError, parseGeminiError, classifyAmended]
  split_ifs <;> exact ⟨rfl, rfl⟩

/-- Claim C3, counterexample: the upstream error with no status field and
message "UNAUTHENTICATED" is classified internal-error (returned status 500)
by the claim's stated rules, but the source classifies it auth-error and
returns status 403. -/
theorem claim_C3_counterexample :
    claimedStatusC3 { status := none, message := "UNAUTHENTICATED" } = 500 ∧
    (parseGeminiError { status := none, message := "UNAUTHENTICATED" }).status = 403 := by
  decide

/-- Claim C3, amended: classification checks the five classes in the claimed
fixed priority order with two corrections — "rate limit" and "quota" are
matched case-insensitively (on the lower-cased message) and the auth class
is also triggered by a message containing UNAUTHENTICATED — and the class
determines the returned status 429 / 503 / 400 / 403 / 500 respectively
(both 401 and 403 inputs fall in the auth class, returned as 403) and the
response's code field. -/
theorem claim_C3_classification (e : GemErr) :
    (parseGeminiError e).status = statusOfClass (classifyAmended e) ∧
    (parseGeminiError e).code = codeOfClass (classifyAmended e) := by
  simp only [parseGeminiError, classifyAmended]
  split_ifs <;> exact ⟨rfl, rfl⟩

/-! ### Claim C9 — lenient vision save -/

/-- Claim C9: a vision-analysis save whose image payload does not parse as
an embedded-image data URI (or is absent) does not fail — the entity is
still constructed with a null imageFile, prepended to visionAnalyses and
persisted, and no file is written — in contrast to the strict
generated-image path, which rejects the same payload with the validation
error and changes nothing. -/
theorem claim_C9_vision_lenient (st : ServerState)
    (cam imageData task result : Option String) (vid vfile now gid gfile : String)
    (hinvalid : matchedImagePayload imageData = none) :
    (saveVision st cam imageData task result vid vfile now).1.imageFile = none ∧
    (saveVision st cam imageData task result vid vfile now).2.store.visionAnalyses =
      (saveVision st cam imageData task result vid vfile now).1 ::
        st.store.visionAnalyses ∧
    (saveVision st cam imageData task result vid vfile now).2.images = st.images ∧
    (saveGeneratedImage st cam imageData gid gfile now).1 =
      .badRequest "No valid image data provided" ∧
    (saveGeneratedImage st cam imageData gid gfile now).2 = st := by
  refine ⟨?_, ?_, ?_, ?_, ?_⟩ <;> simp [saveVision, saveGeneratedImage, hinvalid]

/-- Claim C9, witness: the theorem evaluated on the empty state and a
malformed image payload. -/
theorem claim_C9_witness :
    matchedImagePayload (some "not-a-data-uri") = none ∧
    (saveVision state0 (some "cam") (some "not-a-data-uri") (some "task") (some "res")
        "vision_2" "img_2.png" "t1").1.imageFile = none :=
  ⟨by decide,
    (claim_C9_vision_lenient state0 (some "cam") (some "not-a-data-uri") (some "task")
        (some "res") "vision_2" "img_2.png" "t1" "genimg_2" "gen_2.png" (by decide)).1⟩

/-! ### Claim C6 — delete of an existing entity -/

/-- Claim C6: deleting an existing entity removes it from its collection
and persists the document; for the two image-bearing collections an owned
(truthy) image file is removed from the images directory (removal of a name
already absent from disk changes nothing and is no error); an entity with
no image file is removed without touching any file; the other collections
are untouched; and a second delete with the same collection and id then
fails with not-found, changing nothing. -/
theorem claim_C6_delete_existing (st : ServerState) (coll id : String) (key : CollKey)
    (pre post : List Entry) (e : Entry)
    (hk : collectionMap coll = some key)
    (hsplit : getColl st.store key = pre ++ e :: post)
    (hpre : ∀ x ∈ pre, x.id ≠ id)
    (he : e.id = id)
    (huniq : ∀ x ∈ pre ++ post, x.id ≠ id) :
    (deleteEntry st coll id).1.status = 200 ∧
    (deleteEntry st coll id).1.success = true ∧
    getColl (deleteEntry st coll id).2.store key = pre ++ post ∧
    (∀ k2, k2 ≠ key →
        getColl (deleteEntry st coll id).2.store k2 = getColl st.store k2) ∧
    ((key = CollKey.visionAnalyses ∨ key = CollKey.generatedImages) →
        jsTruthy e.imageFile = true →
        (deleteEntry st coll id).2.images = st.images.erase (e.imageFile.getD "")) ∧
    (jsTruthy e.imageFile = false → (deleteEntry st coll id).2.images = st.images) ∧
    (deleteEntry (deleteEntry st coll id).2 coll id).1.status = 404 ∧
    (deleteEntry (deleteEntry st coll id).2 coll id).2 = (deleteEntry st coll id).2 := by
  have hfind : findIndexJs (fun item => item.id == id) (getColl st.store key) =
      some pre.length := by
    rw [hsplit]
    exact findIndexJs_append_cons _ _ _ _
      (fun x hx => beq_eq_false_iff_ne.mpr (hpre x hx))
      (beq_iff_eq.mpr he)
  have hget : (getColl st.store key)[pre.length]? = some e := by
    rw [hsplit]; exact getElem?_append_cons pre e post
  have herase : (getColl st.store key).eraseIdx pre.length = pre ++ post := by
    rw [hsplit]; exact eraseIdx_append_cons pre e post
  have hcall : deleteEntry st coll id =
      ({ status := 200, success := true },
        { store := setColl st.store key (pre ++ post),
          images :=
            if (key == CollKey.visionAnalyses || key == CollKey.generatedImages)
                && jsTruthy e.imageFile then
              unlinkIfExists st.images (e.imageFile.getD "")
            else st.images }) := by
    simp [deleteEntry, hk, hfind, hget, herase]
  have hnone2 : findIndexJs (fun item => item.id == id) (pre ++ post) = none :=
    findIndexJs_eq_none _ _ fun x hx => beq_eq_false_iff_ne.mpr (huniq x hx)
  refine ⟨by rw [hcall], by rw [hcall], ?_, ?_, ?_, ?_, ?_, ?_⟩
  · rw [hcall]; exact getColl_setColl_self st.store key (pre ++ post)
  · intro k2 hne
    rw [hcall]; exact getColl_setColl_other st.store key k2 (pre ++ post) hne
  · intro hkey htruthy
    have hb : (key == CollKey.visionAnalyses || key == CollKey.generatedImages) = true := by
      rcases hkey with h | h <;> subst h <;> rfl
    rw [hcall]; simp [hb, htruthy, unlinkIfExists_eq_erase]
  · intro hfalse
    rw [hcall]; simp [hfalse]
  · rw [hcall]; simp [deleteEntry, hk, getColl_setColl_self, hnone2]
  · rw [hcall]; simp [deleteEntry, hk, getColl_setColl_self, hnone2]

/-- Claim C6, witness: the theorem evaluated on a state holding one vision
entry that owns an image file. -/
theorem claim_C6_witness :
    collectionMap "vision" = some CollKey.visionAnalyses ∧
    getColl state1.store CollKey.visionAnalyses = [] ++ visionEntry1 :: [] ∧
    visionEntry1.id = "vision_1" ∧
    (deleteEntry state1 "vision" "vision_1").1.status = 200 ∧
    (deleteEntry (deleteEntry state1 "vision" "vision_1").2 "vision" "vision_1").1.status =
      404 :=
  ⟨by decide, by decide, by decide,
    (claim_C6_delete_existing state1 "vision" "vision_1" CollKey.visionAnalyses [] []
        visionEntry1 (by decide) (by decide) (by decide) (by decide) (by decide)).1,
    (claim_C6_delete_existing state1 "vision" "vision_1" CollKey.visionAnalyses [] []
        visionEntry1 (by decide) (by decide) (by decide) (by decide)
        (by decide)).2.2.2.2.2.2.1⟩

/-! ### Claim C7 — chat session upsert -/

/-- Claim C7: upserting a chat session with a given (non-empty) id creates
a new session with startedAt equal to lastMessageAt (both the time of the
call) when no session with that id exists, and otherwise replaces the found
session's messages and lastMessageAt while preserving its original
startedAt (and its position); upserting twice with the same id therefore
keeps the first call's startedAt while messages and lastMessageAt reflect
the second call. -/
theorem claim_C7_chat_upsert (st : ServerState) (idv : String) (m1 m2 : List String)
    (f1 f2 t1 t2 : String) (hid : idv ≠ "") :
    ((∀ s ∈ st.store.chatSessions, s.id ≠ idv) →
      (upsertChat st (some idv) m1 f1 t1).1.startedAt = some t1 ∧
      (upsertChat st (some idv) m1 f1 t1).1.lastMessageAt = some t1 ∧
      (upsertChat st (some idv) m1 f1 t1).1.messages = m1 ∧
      (upsertChat st (some idv) m1 f1 t1).1.id = idv ∧
      (upsertChat st (some idv) m1 f1 t1).2.store.chatSessions =
        (upsertChat st (some idv) m1 f1 t1).1 :: st.store.chatSessions) ∧
    (∀ pre s post, st.store.chatSessions = pre ++ s :: post →
      (∀ x ∈ pre, x.id ≠ idv) → s.id = idv →
      (upsertChat st (some idv) m1 f1 t1).1.startedAt = s.startedAt ∧
      (upsertChat st (some idv) m1 f1 t1).1.messages = m1 ∧
      (upsertChat st (some idv) m1 f1 t1).1.lastMessageAt = some t1 ∧
      (upsertChat st (some idv) m1 f1 t1).2.store.chatSessions =
        pre ++ (upsertChat st (some idv) m1 f1 t1).1 :: post) ∧
    ((upsertChat (upsertChat st (some idv) m1 f1 t1).2 (some idv) m2 f2 t2).1.startedAt =
      (upsertChat st (some idv) m1 f1 t1).1.startedAt ∧
     (upsertChat (upsertChat st (some idv) m1 f1 t1).2 (some idv) m2 f2 t2).1.messages =
      m2 ∧
     (upsertChat (upsertChat st (some idv) m1 f1 t1).2 (some idv) m2 f2 t2).1.lastMessageAt =
      some t2) := by
  have hempty : idv.data.isEmpty = false := data_isEmpty_false_of_ne hid
  refine ⟨?_, ?_, ?_⟩
  · intro hall
    have hf0 : findIndexJs (fun x : Entry => idv == x.id) st.store.chatSessions = none :=
      findIndexJs_eq_none _ _ fun x hx =>
        beq_eq_false_iff_ne.mpr (Ne.symm (hall x hx))
    refine ⟨?_, ?_, ?_, ?_, ?_⟩ <;> simp [upsertChat, hf0, hempty]
  · intro pre s post hsplit hpre hs
    have hf1 : findIndexJs (fun x : Entry => idv == x.id) (pre ++ s :: post) =
        some pre.length :=
      findIndexJs_append_cons _ _ _ _
        (fun x hx => beq_eq_false_iff_ne.mpr (Ne.symm (hpre x hx)))
        (by simp [hs])
    refine ⟨?_, ?_, ?_, ?_⟩ <;>
      simp [upsertChat, hsplit, hf1, hempty, getElem?_append_cons, set_append_cons,
        getElem_append_cons]
  · cases hf : findIndexJs (fun x : Entry => idv == x.id) st.store.chatSessions with
    | none =>
      refine ⟨?_, ?_, ?_⟩ <;> simp [upsertChat, hf, hempty, findIndexJs]
    | some i =>
      have hlt : i < st.store.chatSessions.length :=
        findIndexJs_lt_length _ _ _ hf
      refine ⟨?_, ?_, ?_⟩ <;>
        simp [upsertChat, hf, hempty, findIndexJs_set, getElem?_set_self, hlt]

/-- Claim C7, witness: the theorem's two-call clause evaluated on the empty
state: the second upsert keeps the first call's startedAt. -/
theorem claim_C7_witness :
    ("sess1" : String) ≠ "" ∧
    (upsertChat (upsertChat state0 (some "sess1") ["m1"] "chat_1" "t1").2 (some "sess1")
        ["m1", "m2"] "chat_2" "t2").1.startedAt =
      (upsertChat state0 (some "sess1") ["m1"] "chat_1" "t1").1.startedAt :=
  ⟨by decide,
    (claim_C7_chat_upsert state0 "sess1" ["m1"] ["m1", "m2"] "chat_1" "chat_2" "t1" "t2"
        (by decide)).2.2.1⟩

end CloudCoffee
